import Mathlib

/-!
Verification of the weekly metrics aggregation pipeline of the quickstart
dashboard (frontend/components/dashboard/WeeklyVelocityGraph.tsx,
WeeklyVolumeGraph.tsx variants, WeeklyStatsPanel.tsx).

Modelling conventions:
* Instants are milliseconds since the Unix epoch, as `Int`, in a fixed
  timezone (UTC).  `moment(x).startOf('week')` uses the default locale
  (week starts on Sunday); Jan 1 1970 was a Thursday.
* A raw JSON timestamp field is modelled by `TsField`: `absent` (the field
  is missing, `undefined`/`null`/empty — falsy in JS), `invalid` (present
  but unparseable — a truthy string that moment parses to an invalid
  date), or `parsed t`.  `moment(undefined)` yields the current instant,
  so grouping of an `absent` start time uses the `now` parameter;
  an `invalid` start time formats to the string key "Invalid date".
* Numeric JSON fields are `Option ℚ` (absent / numeric).  JS numbers are
  modelled by `ℚ`; the claims under study do not involve NaN-producing
  field values, and where the code may internally produce NaN (the
  duration of a record with an unparseable time field) the value is only
  observed through a `> 0` guard, so it is modelled by `0`, which behaves
  identically under that guard.
* `parseFloat(x.toFixed(2))` is `round2`: round to 2 decimals, ties
  toward +infinity (ECMA toFixed picks the larger candidate on a tie).
* The presentation-only string fields of the output rows (`year`,
  `weekNumber`, `dateRange`) are omitted; `week`, `velocityKmh`,
  `volumeKm`, `workoutCount` are kept.  A `week` of `none` models the
  NaN `valueOf()` of the "Invalid date" key.
* `Array.prototype.sort` with the comparator `(a, b) => a.week - b.week`
  is modelled by an insertion sort whose comparison treats a NaN week as
  "keep relative order" (comparator result 0); on inputs whose weeks are
  all valid and distinct this coincides with any correct sort.
-/

namespace Quickstart

/-- A raw JSON time field: missing/falsy, present-but-unparseable, or a
parsed instant in ms since the epoch. -/
inductive TsField where
  | absent
  | invalid
  | parsed (ms : Int)
deriving DecidableEq, Repr

/-- The workout-shaped raw record (fields read by the aggregators). -/
structure Workout where
  time_start : TsField
  time_end : TsField
  distance : Option ℚ
  calories : Option ℚ
  duration : Option ℚ
deriving DecidableEq, Repr

def msPerDay : Int := 86400000

def msPerHour : ℚ := 3600000

/-- Day number (floor) of an instant. -/
def dayOf (t : Int) : Int := Int.fdiv t msPerDay

/-- `moment(t).startOf('week')` as a day number: the Sunday on or before
`t`.  Day 0 (Jan 1 1970) was a Thursday, hence the offset 4. -/
def weekStartDay (t : Int) : Int := dayOf t - (dayOf t + 4) % 7

/-- The `groupBy` key `moment(item.time_start).startOf('week').format('YYYY-MM-DD')`:
`some d` models the date string of week-start day `d` (the format is
injective on days), `none` models the string "Invalid date".
`moment(undefined)` is the current instant `now`. -/
def momentWeekKey (now : Int) : TsField → Option Int
  | .absent => some (weekStartDay now)
  | .invalid => none
  | .parsed t => some (weekStartDay t)

/-- `moment(week).valueOf()` on a group key: ms of the week-start day,
`none` modelling the NaN produced by the "Invalid date" key. -/
def momentValueOf : Option Int → Option Int
  | some d => some (d * msPerDay)
  | none => none

/-- JS truthiness of a time field (a non-empty string is truthy even if
unparseable). -/
def tsTruthy : TsField → Bool
  | .absent => false
  | .invalid => true
  | .parsed _ => true

/-- `endTime.diff(startTime, 'hours', true)`; when either side is not a
parsed instant the JS value is NaN, observed only through a `> 0` guard,
modelled by 0. -/
def tsDiffHours (start fin : TsField) : ℚ :=
  match start, fin with
  | .parsed a, .parsed b => ((b : ℚ) - (a : ℚ)) / msPerHour
  | _, _ => 0

/-- Per-record distance of the velocity path (WeeklyVelocityGraph.tsx):
a numeric `distance` above 100 is divided by 1000, otherwise taken as
kilometers; else a truthy `calories` contributes `calories / 10000`. -/
def getDistance (w : Workout) : ℚ :=
  match w.distance with
  | some d => if 100 < d then d / 1000 else d
  | none =>
    match w.calories with
    | some c => if c ≠ 0 then c / 10000 else 0
    | none => 0

/-- `if (workout.time_start && workout.time_end)` then the moment diff,
else 0 (the initial value of `durationHours`). -/
def startEndDiffHours (w : Workout) : ℚ :=
  if tsTruthy w.time_start && tsTruthy w.time_end then
    tsDiffHours w.time_start w.time_end
  else 0

/-- Per-record duration in hours of the velocity path.  The explicit
`duration` branch is guarded by JS truthiness `if (workout.duration)`:
a present-but-zero duration falls through to the start/end fallback. -/
def getDurationHours (w : Workout) : ℚ :=
  match w.duration with
  | some d => if d ≠ 0 then d / 60 else startEndDiffHours w
  | none => startEndDiffHours w

/-- `parseFloat(x.toFixed(2))`: round to 2 decimals (ties toward +∞). -/
def round2 (q : ℚ) : ℚ := ((Int.floor (q * 100 + 1 / 2) : ℤ) : ℚ) / 100

/-- First-occurrence deduplication: the key order of a JS object built by
lodash `groupBy` (string keys in insertion order). -/
def dedupKeys (l : List (Option Int)) : List (Option Int) :=
  l.foldl (fun acc k => if k ∈ acc then acc else acc ++ [k]) []

/-- The distinct week keys of the input, in first-occurrence order. -/
def weekKeys (now : Int) (data : List Workout) : List (Option Int) :=
  dedupKeys (data.map (fun w => momentWeekKey now w.time_start))

/-- `_.groupBy(data, item => moment(item.time_start).startOf('week').format(...))`
followed by `Object.entries`: each key with the records having that key,
in input order. -/
def groupedByWeek (now : Int) (data : List Workout) :
    List (Option Int × List Workout) :=
  (weekKeys now data).map
    (fun k => (k, data.filter (fun w => momentWeekKey now w.time_start = k)))

/-- The output row of `calculateWeeklyVelocity` (presentation-only label
fields omitted). -/
structure VSummary where
  week : Option Int
  velocityKmh : ℚ
  workoutCount : Nat
deriving DecidableEq, Repr

/-- The `workouts.forEach` accumulation: a record is added to both totals
only if its distance and duration are positive. -/
def bucketTotals (ws : List Workout) : ℚ × ℚ :=
  ws.foldl
    (fun acc w =>
      if 0 < getDistance w ∧ 0 < getDurationHours w then
        (acc.1 + getDistance w, acc.2 + getDurationHours w)
      else acc)
    (0, 0)

/-- `avgVelocity`: distance over time when the time total is positive,
capped at 50. -/
def avgVelocity (ws : List Workout) : ℚ :=
  if 0 < (bucketTotals ws).2 then
    if 50 < (bucketTotals ws).1 / (bucketTotals ws).2 then 50
    else (bucketTotals ws).1 / (bucketTotals ws).2
  else 0

def mkVSummary (k : Option Int) (ws : List Workout) : VSummary :=
  { week := momentValueOf k
    velocityKmh := round2 (avgVelocity ws)
    workoutCount := ws.length }

/-- Comparator model for `.sort((a, b) => a.week - b.week)`: `true` means
"a may stay before b".  A NaN week yields comparator NaN, treated as 0
(keep order). -/
def weekLe (a b : Option Int) : Bool :=
  match a, b with
  | some x, some y => x ≤ y
  | _, _ => true

def insertByWeek {α : Type} (wk : α → Option Int) (x : α) :
    List α → List α
  | [] => [x]
  | y :: ys => if weekLe (wk x) (wk y) then x :: y :: ys
               else y :: insertByWeek wk x ys

def sortByWeek {α : Type} (wk : α → Option Int) : List α → List α
  | [] => []
  | x :: xs => insertByWeek wk x (sortByWeek wk xs)

/-- `calculateWeeklyVelocity` of WeeklyVelocityGraph.tsx. -/
def calculateWeeklyVelocity (now : Int) (data : List Workout) :
    List VSummary :=
  sortByWeek VSummary.week
    ((groupedByWeek now data).map (fun g => mkVSummary g.1 g.2))

/-- The output row of `calculateWeeklyVolume` (src/unnamed/part_002). -/
structure VolSummary where
  week : Option Int
  volumeKm : ℚ
deriving DecidableEq, Repr

/-- `workout.calories ? workout.calories / 100 : 0`. -/
def volCal (w : Workout) : ℚ :=
  match w.calories with
  | some c => if c ≠ 0 then c / 100 else 0
  | none => 0

/-- Per-record distance of the volume path (src/unnamed/part_002):
`workout.distance || (workout.calories ? workout.calories / 100 : 0)`. -/
def volDistance (w : Workout) : ℚ :=
  match w.distance with
  | some d => if d ≠ 0 then d else volCal w
  | none => volCal w

def mkVolSummary (k : Option Int) (ws : List Workout) : VolSummary :=
  { week := momentValueOf k
    volumeKm := round2 ((ws.map volDistance).sum) }

/-- `calculateWeeklyVolume` of src/unnamed/part_002. -/
def calculateWeeklyVolume (now : Int) (data : List Workout) :
    List VolSummary :=
  sortByWeek VolSummary.week
    ((groupedByWeek now data).map (fun g => mkVolSummary g.1 g.2))

/-- The date-window filter of the `WeeklyVelocityGraph` component
(second variant): when a start or end date is supplied, keep the rows
whose `week` lies between `moment(startDate).valueOf()` (default 0) and
`moment(endDate).valueOf()` (default: now); a NaN week fails both
comparisons. -/
def windowFilter (startDate endDate : Option Int) (now : Int)
    (rows : List VSummary) : List VSummary :=
  if startDate = none ∧ endDate = none then rows
  else
    let s := startDate.getD 0
    let e := endDate.getD now
    rows.filter (fun r =>
      match r.week with
      | some w => s ≤ w && w ≤ e
      | none => false)

/-- The row sequence rendered by the `WeeklyVelocityGraph` component:
aggregation over the full input, then the window filter. -/
def weeklyVelocityGraphRows (now : Int) (data : List Workout)
    (startDate endDate : Option Int) : List VSummary :=
  windowFilter startDate endDate now (calculateWeeklyVelocity now data)

/-- The activity-shaped raw record (fields read by `processWorkoutData`
in WeeklyStatsPanel.tsx). -/
structure Activity where
  date : TsField
  calories_total : Option ℚ
  high : Option ℚ
  medium : Option ℚ
  low : Option ℚ
  daily_movement : Option ℚ
deriving DecidableEq, Repr

/-- `moment(activity.date).add(1, 'hour').toISOString()`:
`moment(undefined)` is now, so an absent date yields now + 1h; an
invalid date's `toISOString()` is `null`, i.e. a falsy field. -/
def addHour (now : Int) : TsField → TsField
  | .absent => .parsed (now + 3600000)
  | .invalid => .absent
  | .parsed t => .parsed (t + 3600000)

/-- `activity.calories_total ? activity.calories_total / 10000 : 0`. -/
def caloriesDist (a : Activity) : ℚ :=
  match a.calories_total with
  | some c => if c ≠ 0 then c / 10000 else 0
  | none => 0

/-- The activity branch of `processWorkoutData` (WeeklyStatsPanel.tsx):
adapts an activity-shaped record to the workout shape.  `x || 0` on a
numeric field equals `Option.getD 0` (a present 0 is falsy and also
yields 0). -/
def adaptActivity (now : Int) (a : Activity) : Workout :=
  { time_start := a.date
    time_end := addHour now a.date
    calories := some (a.calories_total.getD 0)
    duration := some (a.high.getD 0 + a.medium.getD 0 + a.low.getD 0)
    distance := some
      (match a.daily_movement with
       | some d => if d ≠ 0 then d else caloriesDist a
       | none => caloriesDist a) }

/-- "a.week < b.week" as JS evaluates it: false whenever a week is NaN. -/
def weekLt (a b : Option Int) : Bool :=
  match a, b with
  | some x, some y => decide (x < y)
  | _, _ => false

/-! ### Helper lemmas: first-occurrence deduplication -/

theorem foldlDedup_nodup (l : List (Option Int)) :
    ∀ acc : List (Option Int), acc.Nodup →
      (l.foldl (fun acc k => if k ∈ acc then acc else acc ++ [k]) acc).Nodup := by
  induction l with
  | nil => intro acc h; exact h
  | cons k ks ih =>
    intro acc h
    simp only [List.foldl_cons]
    by_cases hk : k ∈ acc
    · simpa [hk] using ih acc h
    · have hstep : (acc ++ [k]).Nodup := by
        simp [List.nodup_append, h, List.disjoint_singleton, hk]
      simpa [hk] using ih _ hstep

theorem mem_foldlDedup (l : List (Option Int)) :
    ∀ (acc : List (Option Int)) (x : Option Int),
      x ∈ l.foldl (fun acc k => if k ∈ acc then acc else acc ++ [k]) acc ↔
        x ∈ acc ∨ x ∈ l := by
  induction l with
  | nil => intro acc x; simp
  | cons k ks ih =>
    intro acc x
    simp only [List.foldl_cons]
    rw [ih]
    by_cases hk : k ∈ acc
    · simp only [hk, if_true, List.mem_cons]
      constructor
      · rintro (hx | hx)
        · exact Or.inl hx
        · exact Or.inr (Or.inr hx)
      · rintro (hx | rfl | hx)
        · exact Or.inl hx
        · exact Or.inl hk
        · exact Or.inr hx
    · simp only [hk, if_false, List.mem_append, List.mem_singleton, List.mem_cons]
      tauto

theorem weekKeys_nodup (now : Int) (data : List Workout) :
    (weekKeys now data).Nodup :=
  foldlDedup_nodup _ [] List.nodup_nil

theorem mem_weekKeys (now : Int) (data : List Workout) (k : Option Int) :
    k ∈ weekKeys now data ↔
      ∃ w ∈ data, momentWeekKey now w.time_start = k := by
  unfold weekKeys dedupKeys
  rw [mem_foldlDedup]
  simp

/-! ### Helper lemmas: the week sort -/

theorem perm_insertByWeek {α : Type} (wk : α → Option Int) (x : α)
    (l : List α) : (insertByWeek wk x l).Perm (x :: l) := by
  induction l with
  | nil => exact List.Perm.refl _
  | cons y ys ih =>
    simp only [insertByWeek]
    by_cases h : weekLe (wk x) (wk y) = true
    · simp [h]
    · simp only [h, if_false]
      exact (ih.cons y).trans (List.Perm.swap x y ys)

theorem perm_sortByWeek {α : Type} (wk : α → Option Int) (l : List α) :
    (sortByWeek wk l).Perm l := by
  induction l with
  | nil => exact List.Perm.refl _
  | cons x xs ih =>
    exact (perm_insertByWeek wk x (sortByWeek wk xs)).trans (ih.cons x)

theorem mem_sortByWeek {α : Type} (wk : α → Option Int) (l : List α)
    (a : α) : a ∈ sortByWeek wk l ↔ a ∈ l :=
  (perm_sortByWeek wk l).mem_iff

theorem mem_insertByWeek {α : Type} (wk : α → Option Int) (x : α)
    (l : List α) (a : α) : a ∈ insertByWeek wk x l ↔ a = x ∨ a ∈ l := by
  rw [(perm_insertByWeek wk x l).mem_iff]; simp

theorem weekLe_total (a b : Option Int) :
    weekLe a b = true ∨ weekLe b a = true := by
  cases a <;> cases b <;> simp [weekLe]
  exact Int.le_total _ _

theorem weekLe_trans {a b c : Option Int} (hb : b.isSome)
    (h1 : weekLe a b = true) (h2 : weekLe b c = true) :
    weekLe a c = true := by
  cases a <;> cases b <;> cases c <;> simp_all [weekLe]
  omega

theorem pairwise_insertByWeek {α : Type} (wk : α → Option Int) (x : α)
    (l : List α) (hl : ∀ a ∈ l, (wk a).isSome)
    (hp : l.Pairwise (fun a b => weekLe (wk a) (wk b) = true)) :
    (insertByWeek wk x l).Pairwise
      (fun a b => weekLe (wk a) (wk b) = true) := by
  induction l with
  | nil => simp [insertByWeek]
  | cons y ys ih =>
    rw [List.pairwise_cons] at hp
    obtain ⟨hy, hys⟩ := hp
    simp only [insertByWeek]
    by_cases hxy : weekLe (wk x) (wk y) = true
    · rw [if_pos hxy]
      rw [List.pairwise_cons]
      refine ⟨?_, List.pairwise_cons.mpr ⟨hy, hys⟩⟩
      intro z hz
      rcases List.mem_cons.mp hz with rfl | hz
      · exact hxy
      · exact weekLe_trans (hl y (List.mem_cons_self y ys)) hxy (hy z hz)
    · have hyx : weekLe (wk y) (wk x) = true :=
        (weekLe_total (wk x) (wk y)).resolve_left hxy
      rw [if_neg hxy]
      rw [List.pairwise_cons]
      refine ⟨?_, ih (fun a ha => hl a (List.mem_cons_of_mem y ha)) hys⟩
      intro z hz
      rcases (mem_insertByWeek wk x ys z).mp hz with rfl | hz
      · exact hyx
      · exact hy z hz

theorem pairwise_sortByWeek {α : Type} (wk : α → Option Int)
    (l : List α) (hl : ∀ a ∈ l, (wk a).isSome) :
    (sortByWeek wk l).Pairwise
      (fun a b => weekLe (wk a) (wk b) = true) := by
  induction l with
  | nil => simp [sortByWeek]
  | cons x xs ih =>
    exact pairwise_insertByWeek wk x (sortByWeek wk xs)
      (fun a ha => hl a (List.mem_cons_of_mem x ((mem_sortByWeek wk xs a).mp ha)))
      (ih (fun a ha => hl a (List.mem_cons_of_mem x ha)))

theorem pairwise_strict {α : Type} (wk : α → Option Int) (l : List α)
    (hs : ∀ a ∈ l, (wk a).isSome)
    (hp : l.Pairwise (fun a b => weekLe (wk a) (wk b) = true))
    (hn : (l.map wk).Nodup) :
    l.Pairwise (fun a b => weekLt (wk a) (wk b) = true) := by
  induction l with
  | nil => simp
  | cons a l ih =>
    rw [List.pairwise_cons] at hp ⊢
    obtain ⟨ha, hp'⟩ := hp
    rw [List.map_cons, List.nodup_cons] at hn
    obtain ⟨hne, hn'⟩ := hn
    refine ⟨?_, ih (fun b hb => hs b (List.mem_cons_of_mem a hb)) hp' hn'⟩
    intro b hb
    have hle := ha b hb
    have hne' : wk a ≠ wk b := fun h =>
      hne (h ▸ List.mem_map.mpr ⟨b, hb, rfl⟩)
    obtain ⟨x, hx⟩ := Option.isSome_iff_exists.mp
      (hs a (List.mem_cons_self a l))
    obtain ⟨y, hy⟩ := Option.isSome_iff_exists.mp
      (hs b (List.mem_cons_of_mem a hb))
    rw [hx, hy] at hle hne' ⊢
    simp only [weekLe, decide_eq_true_eq] at hle
    simp only [weekLt, decide_eq_true_eq]
    exact lt_of_le_of_ne hle (fun h => hne' (by rw [h]))

theorem momentValueOf_injective : Function.Injective momentValueOf := by
  intro a b h
  cases a <;> cases b <;> simp [momentValueOf, msPerDay] at h ⊢
  omega

/-! ### Helper lemmas: the grouping is a partition by key -/

theorem count_filter_if {α : Type} [DecidableEq α] (p : α → Bool) (x : α)
    (l : List α) :
    (l.filter p).count x = if p x = true then l.count x else 0 := by
  by_cases h : p x = true
  · rw [if_pos h]
    exact List.count_filter h
  · rw [if_neg h, List.count_eq_zero]
    intro hmem
    exact h (List.mem_filter.mp hmem).2

theorem count_groupsAux (now : Int) (data : List Workout) (x : Workout) :
    ∀ keys : List (Option Int), keys.Nodup →
      ((keys.map (fun k =>
          (k, data.filter
            (fun w => momentWeekKey now w.time_start = k)))).flatMap
              Prod.snd).count x =
        if momentWeekKey now x.time_start ∈ keys then data.count x
        else 0 := by
  intro keys
  induction keys with
  | nil => intro _; simp
  | cons k ks ih =>
    intro hnd
    rw [List.nodup_cons] at hnd
    obtain ⟨hk, hnd'⟩ := hnd
    simp only [List.map_cons, List.flatMap_cons, List.count_append]
    rw [ih hnd', count_filter_if]
    by_cases hx : momentWeekKey now x.time_start = k
    · subst hx
      simp [hk]
    · simp [hx, List.mem_cons]

theorem groups_flatMap_perm (now : Int) (data : List Workout) :
    ((groupedByWeek now data).flatMap Prod.snd).Perm data := by
  rw [List.perm_iff_count]
  intro x
  unfold groupedByWeek
  rw [count_groupsAux now data x _ (weekKeys_nodup now data)]
  by_cases hx : momentWeekKey now x.time_start ∈ weekKeys now data
  · rw [if_pos hx]
  · rw [if_neg hx]
    symm
    rw [List.count_eq_zero]
    intro hmem
    exact hx ((mem_weekKeys now data _).mpr ⟨x, hmem, rfl⟩)

theorem mem_group_iff (now : Int) (data : List Workout)
    (g : Option Int × List Workout) (hg : g ∈ groupedByWeek now data)
    (w : Workout) :
    w ∈ g.2 ↔ w ∈ data ∧ momentWeekKey now w.time_start = g.1 := by
  obtain ⟨k, _, rfl⟩ := List.mem_map.mp hg
  simp [List.mem_filter]

/-! ### Helper lemmas: bucket arithmetic and rounding -/

theorem bucketTotals_foldl (ws : List Workout) :
    ∀ acc : ℚ × ℚ,
      ws.foldl
        (fun acc w =>
          if 0 < getDistance w ∧ 0 < getDurationHours w then
            (acc.1 + getDistance w, acc.2 + getDurationHours w)
          else acc) acc =
      (acc.1 +
        ((ws.filter (fun w =>
          decide (0 < getDistance w ∧ 0 < getDurationHours w))).map
            getDistance).sum,
       acc.2 +
        ((ws.filter (fun w =>
          decide (0 < getDistance w ∧ 0 < getDurationHours w))).map
            getDurationHours).sum) := by
  induction ws with
  | nil => intro acc; simp
  | cons w ws ih =>
    intro acc
    simp only [List.foldl_cons]
    rw [ih]
    by_cases h : 0 < getDistance w ∧ 0 < getDurationHours w
    · rw [if_pos h, List.filter_cons,
        if_pos (by simp only [decide_eq_true_eq]; exact h),
        List.map_cons, List.sum_cons]
      refine Prod.ext ?_ ?_ <;> simp <;> ring
    · rw [if_neg h, List.filter_cons,
        if_neg (by simp only [decide_eq_true_eq]; exact h)]

theorem bucketTotals_eq (ws : List Workout) :
    bucketTotals ws =
      (((ws.filter (fun w =>
          decide (0 < getDistance w ∧ 0 < getDurationHours w))).map
            getDistance).sum,
       ((ws.filter (fun w =>
          decide (0 < getDistance w ∧ 0 < getDurationHours w))).map
            getDurationHours).sum) := by
  unfold bucketTotals
  rw [bucketTotals_foldl]
  simp

theorem bucketTotals_nonneg (ws : List Workout) :
    0 ≤ (bucketTotals ws).1 ∧ 0 ≤ (bucketTotals ws).2 := by
  rw [bucketTotals_eq]
  constructor <;>
  · apply List.sum_nonneg
    intro x hx
    obtain ⟨w, hw, rfl⟩ := List.mem_map.mp hx
    have hmem := (List.mem_filter.mp hw).2
    rw [decide_eq_true_eq] at hmem
    first
      | exact le_of_lt hmem.1
      | exact le_of_lt hmem.2

theorem avgVelocity_bounds (ws : List Workout) :
    0 ≤ avgVelocity ws ∧ avgVelocity ws ≤ 50 := by
  unfold avgVelocity
  split_ifs with h1 h2
  · norm_num
  · have hD := (bucketTotals_nonneg ws).1
    have hv : 0 ≤ (bucketTotals ws).1 / (bucketTotals ws).2 :=
      div_nonneg hD (le_of_lt h1)
    exact ⟨hv, le_of_not_lt h2⟩
  · norm_num

theorem round2_nonneg {q : ℚ} (h : 0 ≤ q) : 0 ≤ round2 q := by
  unfold round2
  apply div_nonneg _ (by norm_num)
  have hfl : (0 : ℤ) ≤ Int.floor (q * 100 + 1 / 2) := by
    rw [Int.le_floor]
    push_cast
    nlinarith
  exact_mod_cast hfl

theorem round2_le_fifty {q : ℚ} (h : q ≤ 50) : round2 q ≤ 50 := by
  unfold round2
  rw [div_le_iff₀ (by norm_num : (0 : ℚ) < 100)]
  have hfl : Int.floor (q * 100 + 1 / 2) < 5001 := by
    rw [Int.floor_lt]
    push_cast
    nlinarith
  have hfl' : Int.floor (q * 100 + 1 / 2) ≤ 5000 := by omega
  calc ((Int.floor (q * 100 + 1 / 2) : ℤ) : ℚ) ≤ 5000 := by exact_mod_cast hfl'
    _ = 50 * 100 := by norm_num

theorem round2_zero : round2 0 = 0 := by norm_num [round2]

/-! ### Spec-side restatements (the claims' wording, to be compared with
the definitions above, which are translated from the source) -/

/-- C1's wording of the per-record distance normalization: numeric
distance above 100 is divided by 1000, otherwise taken as kilometers;
else a present calories field contributes `calories / 10000`; else 0. -/
def claimDistance (w : Workout) : ℚ :=
  match w.distance with
  | some d => if 100 < d then d / 1000 else d
  | none =>
    match w.calories with
    | some c => c / 10000
    | none => 0

/-- C2's wording of the per-record duration: `durationMinutes / 60`
whenever an explicit duration is PRESENT (even when it is 0), otherwise
the start/end difference. -/
def specDurationHours (w : Workout) : ℚ :=
  match w.duration with
  | some d => d / 60
  | none => startEndDiffHours w

/-- The amended duration rule: the explicit-duration branch applies when
the duration field is present AND nonzero, otherwise the start/end
difference is used. -/
def amendedDurationHours (w : Workout) : ℚ :=
  if w.duration.getD 0 ≠ 0 then w.duration.getD 0 / 60
  else startEndDiffHours w

theorem amendedDurationHours_eq : amendedDurationHours = getDurationHours := by
  funext w
  unfold amendedDurationHours getDurationHours
  cases hd : w.duration with
  | none => simp
  | some d =>
    by_cases h : d = 0
    · simp [h]
    · simp [h]

/-- The bucket velocity in the claims' wording: sum distance and
duration over the records whose normalized distance and (amended)
normalized duration are positive; when the duration total is positive,
divide, clamp to the 50 cap, and round to 2 decimals; else 0. -/
def velSpec (ws : List Workout) : ℚ :=
  if 0 < ((ws.filter (fun w =>
      decide (0 < getDistance w ∧ 0 < amendedDurationHours w))).map
        amendedDurationHours).sum then
    round2 (min
      (((ws.filter (fun w =>
          decide (0 < getDistance w ∧ 0 < amendedDurationHours w))).map
            getDistance).sum /
       ((ws.filter (fun w =>
          decide (0 < getDistance w ∧ 0 < amendedDurationHours w))).map
            amendedDurationHours).sum)
      50)
  else 0

theorem round2_avg_eq_velSpec (ws : List Workout) :
    round2 (avgVelocity ws) = velSpec ws := by
  unfold velSpec
  rw [amendedDurationHours_eq]
  unfold avgVelocity
  rw [bucketTotals_eq]
  simp only
  by_cases h : 0 <
      ((ws.filter (fun w =>
        decide (0 < getDistance w ∧ 0 < getDurationHours w))).map
          getDurationHours).sum
  · rw [if_pos h, if_pos h]
    by_cases h50 : 50 <
        ((ws.filter (fun w =>
          decide (0 < getDistance w ∧ 0 < getDurationHours w))).map
            getDistance).sum /
        ((ws.filter (fun w =>
          decide (0 < getDistance w ∧ 0 < getDurationHours w))).map
            getDurationHours).sum
    · rw [if_pos h50, min_eq_right (le_of_lt h50)]
    · rw [if_neg h50, min_eq_left (le_of_not_lt h50)]
  · rw [if_neg h, if_neg h, round2_zero]

/-- C3's amended wording of the per-record volume distance: the raw
distance when present and nonzero, else `calories / 100` when present
and nonzero, else 0. -/
def volSpecDistance (w : Workout) : ℚ :=
  if w.distance.getD 0 ≠ 0 then w.distance.getD 0
  else if w.calories.getD 0 ≠ 0 then w.calories.getD 0 / 100 else 0

theorem volSpecDistance_eq : volSpecDistance = volDistance := by
  funext w
  unfold volSpecDistance volDistance volCal
  cases hd : w.distance with
  | none =>
    simp only [Option.getD_none]
    cases hc : w.calories <;> simp
  | some d =>
    by_cases h : d = 0
    · simp only [h, Option.getD_some]
      cases hc : w.calories <;> simp
    · simp [h]

/-! ### Row/bucket correspondence -/

theorem mem_velocityRows (now : Int) (data : List Workout)
    (row : VSummary) :
    row ∈ calculateWeeklyVelocity now data ↔
      ∃ g ∈ groupedByWeek now data, row = mkVSummary g.1 g.2 := by
  unfold calculateWeeklyVelocity
  rw [mem_sortByWeek, List.mem_map]
  constructor
  · rintro ⟨g, hg, e⟩
    exact ⟨g, hg, e.symm⟩
  · rintro ⟨g, hg, e⟩
    exact ⟨g, hg, e.symm⟩

theorem mem_volumeRows (now : Int) (data : List Workout)
    (row : VolSummary) :
    row ∈ calculateWeeklyVolume now data ↔
      ∃ g ∈ groupedByWeek now data, row = mkVolSummary g.1 g.2 := by
  unfold calculateWeeklyVolume
  rw [mem_sortByWeek, List.mem_map]
  constructor
  · rintro ⟨g, hg, e⟩
    exact ⟨g, hg, e.symm⟩
  · rintro ⟨g, hg, e⟩
    exact ⟨g, hg, e.symm⟩

/-! ### Sortedness of the output -/

theorem rows_sorted_core {α : Type} (wk : α → Option Int)
    (keys : List (Option Int)) (mk : Option Int → α)
    (hwk : ∀ k, wk (mk k) = momentValueOf k) (hnd : keys.Nodup)
    (hsome : ∀ k ∈ keys, k.isSome) :
    (sortByWeek wk (keys.map mk)).Pairwise
      (fun a b => weekLt (wk a) (wk b) = true) ∧
    ((sortByWeek wk (keys.map mk)).map wk).Nodup := by
  have hallsome : ∀ a ∈ keys.map mk, (wk a).isSome := by
    intro a ha
    obtain ⟨k, hk, rfl⟩ := List.mem_map.mp ha
    rw [hwk]
    obtain ⟨d, rfl⟩ := Option.isSome_iff_exists.mp (hsome k hk)
    rfl
  have hperm := perm_sortByWeek wk (keys.map mk)
  have hmapeq : (keys.map mk).map wk = keys.map momentValueOf := by
    rw [List.map_map]
    exact List.map_congr_left (fun k _ => hwk k)
  have hnodup_unsorted : ((keys.map mk).map wk).Nodup := by
    rw [hmapeq]
    exact hnd.map momentValueOf_injective
  have hsorted_nodup : ((sortByWeek wk (keys.map mk)).map wk).Nodup :=
    ((hperm.map wk).nodup_iff).mpr hnodup_unsorted
  have hsorted_some : ∀ a ∈ sortByWeek wk (keys.map mk), (wk a).isSome :=
    fun a ha => hallsome a ((mem_sortByWeek wk _ a).mp ha)
  have hpair := pairwise_sortByWeek wk (keys.map mk) hallsome
  exact ⟨pairwise_strict wk _ hsorted_some hpair hsorted_nodup,
    hsorted_nodup⟩

theorem velocityRows_eq (now : Int) (data : List Workout) :
    calculateWeeklyVelocity now data =
      sortByWeek VSummary.week ((weekKeys now data).map
        (fun k => mkVSummary k
          (data.filter (fun w => momentWeekKey now w.time_start = k)))) := by
  unfold calculateWeeklyVelocity groupedByWeek
  rw [List.map_map]
  rfl

theorem volumeRows_eq (now : Int) (data : List Workout) :
    calculateWeeklyVolume now data =
      sortByWeek VolSummary.week ((weekKeys now data).map
        (fun k => mkVolSummary k
          (data.filter (fun w => momentWeekKey now w.time_start = k)))) := by
  unfold calculateWeeklyVolume groupedByWeek
  rw [List.map_map]
  rfl

theorem weekKeys_isSome (now : Int) (data : List Workout)
    (h : ∀ w ∈ data, w.time_start ≠ TsField.invalid) :
    ∀ k ∈ weekKeys now data, k.isSome := by
  intro k hk
  obtain ⟨w, hw, rfl⟩ := (mem_weekKeys now data k).mp hk
  cases hts : w.time_start with
  | absent => rfl
  | invalid => exact absurd hts (h w hw)
  | parsed t => simp [momentWeekKey]

theorem velocity_singleton (now : Int) (w : Workout) :
    calculateWeeklyVelocity now [w] =
      [mkVSummary (momentWeekKey now w.time_start) [w]] := by
  unfold calculateWeeklyVelocity groupedByWeek weekKeys dedupKeys
  simp [sortByWeek, insertByWeek]

theorem volume_singleton (now : Int) (w : Workout) :
    calculateWeeklyVolume now [w] =
      [mkVolSummary (momentWeekKey now w.time_start) [w]] := by
  unfold calculateWeeklyVolume groupedByWeek weekKeys dedupKeys
  simp [sortByWeek, insertByWeek]

/-! ### The claims -/

/-- C1: for every record of the weekly velocity aggregation, the
normalized per-record distance is: a numeric `distance` divided by 1000
when above 100 and taken as kilometers otherwise; else `calories / 10000`
when a calories field is present; else 0.  (A present-but-zero calories
field is falsy in the source and yields 0, which coincides with
0 / 10000.) -/
theorem claim_C1 (w : Workout) : getDistance w = claimDistance w := by
  unfold getDistance claimDistance
  cases w.distance with
  | some d => rfl
  | none =>
    cases w.calories with
    | some c =>
      by_cases hc : c = 0
      · simp [hc]
      · simp [hc]
    | none => rfl

/-- C10: a record whose explicit duration field is present but equal to
0 does not take the explicit-duration branch; with both time fields
parseable its duration is derived from `time_end - time_start`. -/
theorem claim_C10 (w : Workout) (a b : Int) (h0 : w.duration = some 0)
    (hs : w.time_start = TsField.parsed a)
    (he : w.time_end = TsField.parsed b) :
    getDurationHours w = ((b : ℚ) - (a : ℚ)) / msPerHour := by
  unfold getDurationHours startEndDiffHours tsDiffHours
  rw [h0, hs, he]
  simp [tsTruthy]

theorem claim_C10_witness :
    getDurationHours ⟨TsField.parsed 0, TsField.parsed 3600000, none,
      none, some 0⟩ = ((3600000 : ℚ) - (0 : ℚ)) / msPerHour :=
  claim_C10 ⟨TsField.parsed 0, TsField.parsed 3600000, none, none,
    some 0⟩ 0 3600000 rfl rfl rfl

/-- C9: the aggregation is total (both aggregators are plain functions
in this embedding — no exception path exists); an empty input yields an
empty summary sequence; and a record with no usable distance fields
contributes 0 to the distance estimate of both paths and leaves the
velocity sums of any bucket unchanged. -/
theorem claim_C9 (now : Int) :
    calculateWeeklyVelocity now [] = [] ∧
    calculateWeeklyVolume now [] = [] ∧
    (∀ w : Workout, w.distance = none → w.calories = none →
      getDistance w = 0 ∧ volDistance w = 0 ∧
      ∀ ws : List Workout, bucketTotals (ws ++ [w]) = bucketTotals ws) := by
  refine ⟨rfl, rfl, ?_⟩
  intro w hd hc
  have hgd : getDistance w = 0 := by
    unfold getDistance
    rw [hd, hc]
  refine ⟨hgd, ?_, ?_⟩
  · unfold volDistance volCal
    rw [hd, hc]
  · intro ws
    unfold bucketTotals
    rw [List.foldl_append]
    simp [hgd]

theorem claim_C9_witness :
    calculateWeeklyVelocity 5 [] = [] ∧
    getDistance ⟨TsField.absent, TsField.absent, none, none, none⟩ = 0 :=
  ⟨(claim_C9 5).1,
   ((claim_C9 5).2.2 ⟨TsField.absent, TsField.absent, none, none, none⟩
     rfl rfl).1⟩

/-- C7: with both window bounds supplied, a summary row of the rendered
sequence is kept exactly when its `weekStart` lies in the inclusive
interval; the filter is applied to the aggregation of the FULL input
(`calculateWeeklyVelocity now data` is computed before filtering). -/
theorem claim_C7 (now : Int) (data : List Workout) (s e : Int)
    (r : VSummary) :
    r ∈ weeklyVelocityGraphRows now data (some s) (some e) ↔
      r ∈ calculateWeeklyVelocity now data ∧
        ∃ w, r.week = some w ∧ s ≤ w ∧ w ≤ e := by
  unfold weeklyVelocityGraphRows windowFilter
  rw [if_neg (by simp), List.mem_filter]
  simp only [Option.getD_some]
  constructor
  · rintro ⟨hr, hp⟩
    refine ⟨hr, ?_⟩
    cases hw : r.week with
    | none => rw [hw] at hp; simp at hp
    | some w =>
      rw [hw] at hp
      simp only [Bool.and_eq_true, decide_eq_true_eq] at hp
      exact ⟨w, rfl, hp.1, hp.2⟩
  · rintro ⟨hr, w, hw, h1, h2⟩
    refine ⟨hr, ?_⟩
    rw [hw]
    simp [h1, h2]

theorem claim_C7_witness :
    (⟨some 259200000, 20, 1⟩ : VSummary) ∈
      weeklyVelocityGraphRows 0
        [⟨TsField.parsed 0, TsField.parsed 3600000, some 10, none, none⟩,
         ⟨TsField.parsed 604800000, TsField.parsed 608400000, some 20,
           none, none⟩]
        (some 0) (some 604800000) :=
  (claim_C7 0
    [⟨TsField.parsed 0, TsField.parsed 3600000, some 10, none, none⟩,
     ⟨TsField.parsed 604800000, TsField.parsed 608400000, some 20, none,
       none⟩]
    0 604800000 ⟨some 259200000, 20, 1⟩).mpr
    ⟨by
      simp [calculateWeeklyVelocity, groupedByWeek, weekKeys, dedupKeys,
        momentWeekKey, weekStartDay, dayOf, msPerDay, mkVSummary,
        momentValueOf, sortByWeek, insertByWeek, weekLe, avgVelocity,
        bucketTotals, getDistance, getDurationHours, startEndDiffHours,
        tsDiffHours, tsTruthy, msPerHour, round2]
      norm_num,
     ⟨259200000, rfl, by norm_num, by norm_num⟩⟩

/-- C2's original duration wording (`durationMinutes / 60` whenever an
explicit duration is PRESENT) fails on the code: a record with an
explicit duration of 0 and a 1-hour start/end span is, per the claim,
excluded from the velocity sums (its duration would be 0), yet the code
derives 1 hour from the timestamps and produces velocity 10, not 0. -/
theorem claim_C2_cex :
    specDurationHours ⟨TsField.parsed 0, TsField.parsed 3600000, some 10,
      none, some 0⟩ = 0 ∧
    (calculateWeeklyVelocity 0
      [⟨TsField.parsed 0, TsField.parsed 3600000, some 10, none,
        some 0⟩]).map VSummary.velocityKmh = [10] ∧
    (10 : ℚ) ≠ 0 := by
  refine ⟨by norm_num [specDurationHours], ?_, by norm_num⟩
  rw [velocity_singleton]
  simp [mkVSummary, avgVelocity, bucketTotals, getDistance,
    getDurationHours, startEndDiffHours, tsDiffHours, tsTruthy, msPerHour,
    round2]
  norm_num

/-- C2 (amended): a record contributes to a bucket's totals only if its
normalized distance is positive and its normalized duration is positive,
where the duration is `durationMinutes / 60` when the explicit duration
is present AND NONZERO, and otherwise the fractional hours from
timestamp to endTimestamp (0 if unavailable); the bucket's `velocityKmh`
is the distance total over the duration total, clamped at 50 and rounded
to 2 decimals, when the duration total is positive, else 0. -/
theorem claim_C2_amended (now : Int) (data : List Workout)
    (row : VSummary) (h : row ∈ calculateWeeklyVelocity now data) :
    ∃ g ∈ groupedByWeek now data,
      row = mkVSummary g.1 g.2 ∧ row.velocityKmh = velSpec g.2 := by
  obtain ⟨g, hg, rfl⟩ := (mem_velocityRows now data row).mp h
  exact ⟨g, hg, rfl, round2_avg_eq_velSpec g.2⟩

theorem claim_C2_witness :
    ∃ g ∈ groupedByWeek 0
      [⟨TsField.parsed 0, TsField.parsed 3600000, some 10, none, none⟩],
      mkVSummary (momentWeekKey 0 (TsField.parsed 0))
        [⟨TsField.parsed 0, TsField.parsed 3600000, some 10, none,
          none⟩] = mkVSummary g.1 g.2 ∧
      (mkVSummary (momentWeekKey 0 (TsField.parsed 0))
        [⟨TsField.parsed 0, TsField.parsed 3600000, some 10, none,
          none⟩]).velocityKmh = velSpec g.2 :=
  claim_C2_amended 0
    [⟨TsField.parsed 0, TsField.parsed 3600000, some 10, none, none⟩] _
    (by rw [velocity_singleton]; exact List.mem_singleton.mpr rfl)

/-- C3 fails on the code: the volume path of src/unnamed/part_002 does
NOT reuse the velocity normalization; it takes a truthy `distance` raw
(no >100 rescaling) and falls back to `calories / 100`, not
`calories / 10000`.  The claim's own example `[{timestamp: 2024-01-01,
calories: 2000}]` yields `volumeKm = 20.00`, not 0.20. -/
theorem claim_C3_cex :
    calculateWeeklyVolume 0
      [⟨TsField.parsed 1704067200000, TsField.absent, none, some 2000,
        none⟩] = [⟨some 1703980800000, 20⟩] ∧
    (20 : ℚ) ≠ 1 / 5 := by
  refine ⟨?_, by norm_num⟩
  rw [volume_singleton]
  simp [mkVolSummary, momentWeekKey, weekStartDay, dayOf, msPerDay,
    momentValueOf, volDistance, volCal, round2]
  norm_num

/-- C3 (amended): every volume row is the rounded sum, over its bucket,
of the per-record volume distance "raw `distance` when present and
nonzero, else `calories / 100` when present and nonzero, else 0"; on the
example `[{timestamp: 2024-01-01, calories: 2000}]` this gives
`volumeKm = 20.00` (and `velocityKmh = 0.00` on the velocity path, as
the claim said). -/
theorem claim_C3_amended (now : Int) (data : List Workout)
    (row : VolSummary) (h : row ∈ calculateWeeklyVolume now data) :
    ∃ g ∈ groupedByWeek now data,
      row = mkVolSummary g.1 g.2 ∧
      row.volumeKm = round2 ((g.2.map volSpecDistance).sum) := by
  obtain ⟨g, hg, rfl⟩ := (mem_volumeRows now data row).mp h
  refine ⟨g, hg, rfl, ?_⟩
  rw [volSpecDistance_eq]
  rfl

theorem claim_C3_witness :
    (calculateWeeklyVelocity 0
      [⟨TsField.parsed 1704067200000, TsField.absent, none, some 2000,
        none⟩]).map VSummary.velocityKmh = [0] ∧
    ∃ g ∈ groupedByWeek 0
      [⟨TsField.parsed 1704067200000, TsField.absent, none, some 2000,
        none⟩],
      mkVolSummary (momentWeekKey 0 (TsField.parsed 1704067200000))
        [⟨TsField.parsed 1704067200000, TsField.absent, none, some 2000,
          none⟩] = mkVolSummary g.1 g.2 ∧
      (mkVolSummary (momentWeekKey 0 (TsField.parsed 1704067200000))
        [⟨TsField.parsed 1704067200000, TsField.absent, none, some 2000,
          none⟩]).volumeKm = round2 ((g.2.map volSpecDistance).sum) :=
  ⟨by
    rw [velocity_singleton]
    simp [mkVSummary, avgVelocity, bucketTotals, getDistance,
      getDurationHours, startEndDiffHours, tsDiffHours, tsTruthy,
      msPerHour, round2]
    norm_num,
   claim_C3_amended 0
    [⟨TsField.parsed 1704067200000, TsField.absent, none, some 2000,
      none⟩] _
    (by rw [volume_singleton]; exact List.mem_singleton.mpr rfl)⟩

theorem volCal_nonneg (w : Workout) (hc : 0 ≤ w.calories.getD 0) :
    0 ≤ volCal w := by
  unfold volCal
  cases hcal : w.calories with
  | none => norm_num
  | some c =>
    rw [hcal, Option.getD_some] at hc
    by_cases hz : c = 0
    · simp [hz]
    · simp only [hz, ne_eq, not_false_iff, if_true]
      exact div_nonneg hc (by norm_num)

theorem volDistance_nonneg (w : Workout) (hd : 0 ≤ w.distance.getD 0)
    (hc : 0 ≤ w.calories.getD 0) : 0 ≤ volDistance w := by
  unfold volDistance
  cases hdist : w.distance with
  | none => exact volCal_nonneg w hc
  | some d =>
    rw [hdist, Option.getD_some] at hd
    by_cases hz : d = 0
    · simp only [hz, ne_eq, not_true_eq_false, if_false]
      exact volCal_nonneg w hc
    · simp only [hz, ne_eq, not_false_iff, if_true]
      exact hd

/-- C6 fails on the code for the volume path: a record with a negative
`distance` drives `volumeKm` below 0 (the volume summation never guards
signs).  Concretely a single record with distance -5 yields a row with
`volumeKm = -5`. -/
theorem claim_C6_cex :
    calculateWeeklyVolume 0
      [⟨TsField.parsed 0, TsField.absent, some (-5), none, none⟩] =
      [⟨some (-345600000), -5⟩] ∧
    ¬ (0 : ℚ) ≤ -5 := by
  refine ⟨?_, by norm_num⟩
  rw [volume_singleton]
  simp [mkVolSummary, momentWeekKey, weekStartDay, dayOf, msPerDay,
    momentValueOf, volDistance, volCal, round2]
  norm_num

/-- C6 (amended): for EVERY input sequence, every velocity row satisfies
`0 ≤ velocityKmh ≤ 50` unconditionally (the inclusion guard admits only
positive contributions and the cap bounds the ratio); every volume row
satisfies `volumeKm ≥ 0` provided all records carry nonnegative
`distance` and `calories` values (the proviso applies to the volume
half only). -/
theorem claim_C6_amended (now : Int) (data : List Workout) :
    (∀ row ∈ calculateWeeklyVelocity now data,
      0 ≤ row.velocityKmh ∧ row.velocityKmh ≤ 50) ∧
    ((∀ w ∈ data, 0 ≤ w.distance.getD 0 ∧ 0 ≤ w.calories.getD 0) →
      ∀ row ∈ calculateWeeklyVolume now data, 0 ≤ row.volumeKm) := by
  constructor
  · intro row hrow
    obtain ⟨g, _, rfl⟩ := (mem_velocityRows now data row).mp hrow
    have hb := avgVelocity_bounds g.2
    exact ⟨round2_nonneg hb.1, round2_le_fifty hb.2⟩
  · intro h row hrow
    obtain ⟨g, hg, rfl⟩ := (mem_volumeRows now data row).mp hrow
    apply round2_nonneg
    apply List.sum_nonneg
    intro x hx
    obtain ⟨w, hw, rfl⟩ := List.mem_map.mp hx
    have hwdata : w ∈ data := ((mem_group_iff now data g hg w).mp hw).1
    obtain ⟨hd, hc⟩ := h w hwdata
    exact volDistance_nonneg w hd hc

theorem claim_C6_witness :
    (0 ≤ (mkVSummary (momentWeekKey 0 (TsField.parsed (-5)))
      [⟨TsField.parsed (-5), TsField.absent, some (-5), none,
        none⟩]).velocityKmh ∧
     (mkVSummary (momentWeekKey 0 (TsField.parsed (-5)))
      [⟨TsField.parsed (-5), TsField.absent, some (-5), none,
        none⟩]).velocityKmh ≤ 50) ∧
    0 ≤ (mkVolSummary (momentWeekKey 0 (TsField.parsed 0))
      [⟨TsField.parsed 0, TsField.absent, some 10, none,
        some 60⟩]).volumeKm :=
  ⟨(claim_C6_amended 0
      [⟨TsField.parsed (-5), TsField.absent, some (-5), none, none⟩]).1 _
    (by rw [velocity_singleton]; exact List.mem_singleton.mpr rfl),
   (claim_C6_amended 0
      [⟨TsField.parsed 0, TsField.absent, some 10, none, some 60⟩]).2
    (by
      intro w hw
      rw [List.mem_singleton] at hw
      subst hw
      norm_num) _
    (by rw [volume_singleton]; exact List.mem_singleton.mpr rfl)⟩

/-- C4 fails on the code: lodash `groupBy` never drops a record.  A
record with an unparseable timestamp is grouped under the "Invalid date"
key and produces a summary row (here with `week = NaN`, modelled as
`none`, and velocity 10), so it does affect the output. -/
theorem claim_C4_cex :
    calculateWeeklyVelocity 0
      [⟨TsField.invalid, TsField.absent, some 10, none, some 60⟩] =
      [⟨none, 10, 1⟩] ∧
    ([⟨none, 10, 1⟩] : List VSummary) ≠ [] := by
  refine ⟨?_, by simp⟩
  rw [velocity_singleton]
  simp [mkVSummary, avgVelocity, bucketTotals, getDistance,
    getDurationHours, startEndDiffHours, tsDiffHours, tsTruthy, msPerHour,
    round2, momentWeekKey, momentValueOf]
  norm_num

/-- C4 (amended): grouping is a pure partition of ALL records — none
duplicated, none dropped: the week keys are distinct, the concatenation
of the buckets is a permutation of the input, and a record lies in a
bucket exactly when its week key (the "Invalid date" key for
unparseable timestamps, the current week for absent ones) matches; in
particular unparseable-timestamp records are NOT excluded. -/
theorem claim_C4_amended (now : Int) (data : List Workout) :
    (weekKeys now data).Nodup ∧
    ((groupedByWeek now data).flatMap Prod.snd).Perm data ∧
    ∀ g ∈ groupedByWeek now data, ∀ w : Workout,
      w ∈ g.2 ↔ w ∈ data ∧ momentWeekKey now w.time_start = g.1 :=
  ⟨weekKeys_nodup now data, groups_flatMap_perm now data,
   fun g hg w => mem_group_iff now data g hg w⟩

theorem claim_C4_witness :
    ((groupedByWeek 0
      [⟨TsField.invalid, TsField.absent, some 10, none, some 60⟩]).flatMap
        Prod.snd).Perm
      [⟨TsField.invalid, TsField.absent, some 10, none, some 60⟩] :=
  (claim_C4_amended 0
    [⟨TsField.invalid, TsField.absent, some 10, none, some 60⟩]).2.1

/-- C5 fails on the code for inputs containing an unparseable timestamp:
that record's row has a NaN `week` (modelled `none`), and NaN compares
false, so the output is not strictly ascending by `weekStart`. -/
theorem claim_C5_cex :
    calculateWeeklyVelocity 0
      [⟨TsField.invalid, TsField.absent, some 5, none, some 30⟩,
       ⟨TsField.parsed 0, TsField.absent, some 5, none, some 30⟩] =
      [⟨none, 10, 1⟩, ⟨some (-345600000), 10, 1⟩] ∧
    ¬ ([⟨none, 10, 1⟩, ⟨some (-345600000), 10, 1⟩] :
        List VSummary).Pairwise (fun a b => weekLt a.week b.week = true) := by
  constructor
  · simp [calculateWeeklyVelocity, groupedByWeek, weekKeys, dedupKeys,
      momentWeekKey, weekStartDay, dayOf, msPerDay, mkVSummary,
      momentValueOf, sortByWeek, insertByWeek, weekLe, avgVelocity,
      bucketTotals, getDistance, getDurationHours, startEndDiffHours,
      tsDiffHours, tsTruthy, msPerHour, round2]
    norm_num
  · intro h
    rw [List.pairwise_cons] at h
    have hcontra := h.1 (⟨some (-345600000), 10, 1⟩ : VSummary)
      (List.mem_singleton.mpr rfl)
    simp [weekLt] at hcontra

/-- C5 (amended): for inputs whose records all have parseable-or-absent
timestamps (no "Invalid date" records), both aggregators' outputs are
strictly ascending by `weekStart` and contain no duplicate week keys. -/
theorem claim_C5_amended (now : Int) (data : List Workout)
    (h : ∀ w ∈ data, w.time_start ≠ TsField.invalid) :
    (calculateWeeklyVelocity now data).Pairwise
      (fun a b => weekLt a.week b.week = true) ∧
    ((calculateWeeklyVelocity now data).map VSummary.week).Nodup ∧
    (calculateWeeklyVolume now data).Pairwise
      (fun a b => weekLt a.week b.week = true) ∧
    ((calculateWeeklyVolume now data).map VolSummary.week).Nodup := by
  have hsome := weekKeys_isSome now data h
  have hv := rows_sorted_core VSummary.week (weekKeys now data)
    (fun k => mkVSummary k
      (data.filter (fun w => momentWeekKey now w.time_start = k)))
    (fun _ => rfl) (weekKeys_nodup now data) hsome
  have hvol := rows_sorted_core VolSummary.week (weekKeys now data)
    (fun k => mkVolSummary k
      (data.filter (fun w => momentWeekKey now w.time_start = k)))
    (fun _ => rfl) (weekKeys_nodup now data) hsome
  rw [velocityRows_eq, volumeRows_eq]
  exact ⟨hv.1, hv.2, hvol.1, hvol.2⟩

/-- The distance synthesized by the activity adapter, in `getD` form:
`daily_movement` when present and nonzero, else `calories_total / 10000`
when present and nonzero, else 0. -/
def activityRawDist (a : Activity) : ℚ :=
  if a.daily_movement.getD 0 ≠ 0 then a.daily_movement.getD 0
  else if a.calories_total.getD 0 ≠ 0 then a.calories_total.getD 0 / 10000
  else 0

/-- The explicit duration synthesized by the adapter, in minutes. -/
def activityMins (a : Activity) : ℚ :=
  a.high.getD 0 + a.medium.getD 0 + a.low.getD 0

/-- The duration the velocity pipeline derives for an adapted activity
record whose date parses: the synthesized minutes over 60 when nonzero,
else the 1 hour between the synthesized start and end times. -/
def activityHours (a : Activity) : ℚ :=
  if activityMins a ≠ 0 then activityMins a / 60 else 1

/-- The adapted distance after the pipeline's >100 normalization. -/
def activityDist (a : Activity) : ℚ :=
  if 100 < activityRawDist a then activityRawDist a / 1000
  else activityRawDist a

/-- The velocity the pipeline derives for a single adapted activity
record: distance over time, guarded, capped and rounded — never an
intensity-weighted average of the high/medium/low minutes. -/
def activityVelSpec (a : Activity) : ℚ :=
  if 0 < activityDist a ∧ 0 < activityHours a then
    round2 (if 50 < activityDist a / activityHours a then 50
            else activityDist a / activityHours a)
  else 0

theorem caloriesDist_getD (a : Activity) :
    caloriesDist a =
      if a.calories_total.getD 0 ≠ 0 then a.calories_total.getD 0 / 10000
      else 0 := by
  unfold caloriesDist
  cases hct : a.calories_total with
  | none => simp
  | some c =>
    by_cases hz : c = 0
    · simp [hz]
    · simp [hz]

theorem adapt_distance (now : Int) (a : Activity) :
    (adaptActivity now a).distance = some (activityRawDist a) := by
  unfold adaptActivity activityRawDist
  rw [← caloriesDist_getD]
  cases hdm : a.daily_movement with
  | none => simp
  | some d =>
    by_cases hz : d = 0
    · simp [hz]
    · simp [hz]

theorem adapt_getDistance (now : Int) (a : Activity) :
    getDistance (adaptActivity now a) = activityDist a := by
  unfold getDistance activityDist
  rw [adapt_distance]

theorem adapt_getDurationHours (now : Int) (a : Activity) (t : Int)
    (hdate : a.date = TsField.parsed t) :
    getDurationHours (adaptActivity now a) = activityHours a := by
  have hdur : (adaptActivity now a).duration = some (activityMins a) := rfl
  unfold getDurationHours activityHours
  rw [hdur]
  by_cases hz : activityMins a = 0
  · simp only [hz, ne_eq, not_true_eq_false, if_false]
    unfold startEndDiffHours
    have hts : (adaptActivity now a).time_start = TsField.parsed t := hdate
    have hte : (adaptActivity now a).time_end =
        TsField.parsed (t + 3600000) := by
      show addHour now a.date = _
      rw [hdate]
      rfl
    rw [hts, hte]
    simp [tsTruthy, tsDiffHours, msPerHour]
  · simp [hz]

theorem avgVelocity_singleton (w : Workout) :
    avgVelocity [w] =
      if 0 < getDistance w ∧ 0 < getDurationHours w then
        (if 50 < getDistance w / getDurationHours w then 50
         else getDistance w / getDurationHours w)
      else 0 := by
  unfold avgVelocity bucketTotals
  simp only [List.foldl_cons, List.foldl_nil]
  by_cases h : 0 < getDistance w ∧ 0 < getDurationHours w
  · rw [if_pos h]
    simp only [zero_add]
    rw [if_pos h.2, if_pos h]
  · rw [if_neg h, if_neg h]
    norm_num

/-- C8 fails on the code: no intensity-weighted velocity formula exists.
For the activity record `{date: epoch, calories_total: 2000, high: 30,
medium: 0, low: 30}` the adapter yields distance 0.2 km and duration 60
minutes, so the pipeline's velocity is 0.2 km/h, while the claimed
weighted formula gives (30·15 + 0·10 + 30·5)/60 = 10. -/
theorem claim_C8_cex :
    (calculateWeeklyVelocity 0
      [adaptActivity 0
        ⟨TsField.parsed 0, some 2000, some 30, some 0, some 30,
          none⟩]).map VSummary.velocityKmh = [1 / 5] ∧
    ((30 : ℚ) * 15 + 0 * 10 + 30 * 5) / (30 + 0 + 30) = 10 ∧
    (1 / 5 : ℚ) ≠ 10 := by
  refine ⟨?_, by norm_num, by norm_num⟩
  rw [velocity_singleton]
  simp [adaptActivity, addHour, caloriesDist, mkVSummary, avgVelocity,
    bucketTotals, getDistance, getDurationHours, startEndDiffHours,
    tsDiffHours, tsTruthy, msPerHour, round2]
  norm_num

/-- C8 (amended): an activity-shaped record is adapted to the workout
shape — explicit duration = high+medium+low minutes, distance =
`daily_movement` when nonzero else `calories_total / 10000` — and the
velocity the pipeline derives for it is distance over time (with the
standard >100 normalization, positivity guard, 50 cap and rounding),
not an intensity-weighted average. -/
theorem claim_C8_amended (now : Int) (a : Activity) (t : Int)
    (hdate : a.date = TsField.parsed t) :
    (adaptActivity now a).duration = some (activityMins a) ∧
    (adaptActivity now a).distance = some (activityRawDist a) ∧
    (calculateWeeklyVelocity now [adaptActivity now a]).map
      VSummary.velocityKmh = [activityVelSpec a] := by
  refine ⟨rfl, adapt_distance now a, ?_⟩
  rw [velocity_singleton]
  show [round2 (avgVelocity [adaptActivity now a])] = [activityVelSpec a]
  rw [avgVelocity_singleton, adapt_getDistance,
    adapt_getDurationHours now a t hdate]
  unfold activityVelSpec
  by_cases hg : 0 < activityDist a ∧ 0 < activityHours a
  · rw [if_pos hg, if_pos hg]
  · rw [if_neg hg, if_neg hg, round2_zero]

theorem claim_C8_witness :
    (adaptActivity 0
      ⟨TsField.parsed 0, some 2000, some 30, some 0, some 30,
        none⟩).duration =
      some (activityMins
        ⟨TsField.parsed 0, some 2000, some 30, some 0, some 30, none⟩) ∧
    (adaptActivity 0
      ⟨TsField.parsed 0, some 2000, some 30, some 0, some 30,
        none⟩).distance =
      some (activityRawDist
        ⟨TsField.parsed 0, some 2000, some 30, some 0, some 30, none⟩) ∧
    (calculateWeeklyVelocity 0
      [adaptActivity 0
        ⟨TsField.parsed 0, some 2000, some 30, some 0, some 30,
          none⟩]).map VSummary.velocityKmh =
      [activityVelSpec
        ⟨TsField.parsed 0, some 2000, some 30, some 0, some 30, none⟩] :=
  claim_C8_amended 0
    ⟨TsField.parsed 0, some 2000, some 30, some 0, some 30, none⟩ 0 rfl

theorem claim_C5_witness :
    (calculateWeeklyVelocity 0
      [⟨TsField.parsed 0, TsField.absent, some 5, none,
        some 30⟩]).Pairwise (fun a b => weekLt a.week b.week = true) :=
  (claim_C5_amended 0
    [⟨TsField.parsed 0, TsField.absent, some 5, none, some 30⟩]
    (by
      intro w hw
      rw [List.mem_singleton] at hw
      subst hw
      simp)).1

end Quickstart
